import Mathlib

/-!
Shallow embedding of the `InteractableCanvas` React component
(src/unnamed/part_001 of joeylemon/react-interactable-canvas).

JS numbers are modelled as rationals (ℚ); the canvas 2D context's
transformation matrix is the DOMMatrix (a, b, c, d, e, f) with
`ctx.translate` / `ctx.scale` post-multiplying the current matrix,
exactly as the HTML canvas model prescribes.  `DEFAULT_SCALING`
(`Math.max(2, window.devicePixelRatio)`) is threaded through as an
explicit parameter named `scaling`.
-/

namespace InteractableCanvas

/-- The 2D canvas transformation matrix, in DOMMatrix field order:
`a` horizontal scaling, `b` vertical skewing, `c` horizontal skewing,
`d` vertical scaling, `e` horizontal translation, `f` vertical translation. -/
structure Transform where
  a : ℚ
  b : ℚ
  c : ℚ
  d : ℚ
  e : ℚ
  f : ℚ
deriving DecidableEq, Repr

/-- A point, as the `{x, y}` object literals in the source. -/
structure Point where
  x : ℚ
  y : ℚ
deriving DecidableEq, Repr

/-- The canvas bounding client rect (only width/height are read by the code). -/
structure Rect where
  width : ℚ
  height : ℚ
deriving DecidableEq, Repr

/-- Semantics of `ctx.translate(dx, dy)`: post-multiply the current matrix by a
translation matrix, so `e += a*dx + c*dy` and `f += b*dx + d*dy`. -/
def Transform.translate (t : Transform) (dx dy : ℚ) : Transform :=
  { t with e := t.e + t.a * dx + t.c * dy, f := t.f + t.b * dx + t.d * dy }

/-- Semantics of `ctx.scale(sx, sy)`: post-multiply the current matrix by a
scaling matrix, so `a *= sx`, `b *= sx`, `c *= sy`, `d *= sy`. -/
def Transform.scaleBy (t : Transform) (sx sy : ℚ) : Transform :=
  { t with a := t.a * sx, b := t.b * sx, c := t.c * sy, d := t.d * sy }

/-- The identity transform (scale 1, no skew, no translation). -/
def Transform.identity : Transform := ⟨1, 0, 0, 1, 0, 0⟩

/-- Embedding of `getTransformedPoint(ctx, x, y)`: reads the current transform,
takes `inverseZoom = 1 / transform.a`, multiplies each coordinate by
`inverseZoom`, then by `DEFAULT_SCALING` (the `scaling` parameter), then
subtracts `inverseZoom * translation`. -/
def getTransformedPoint (scaling : ℚ) (t : Transform) (x y : ℚ) : Point :=
  let inverseZoom := 1 / t.a
  let transformedX := inverseZoom * x * scaling - inverseZoom * t.e
  let transformedY := inverseZoom * y * scaling - inverseZoom * t.f
  ⟨transformedX, transformedY⟩

/-- Embedding of `enforceBounds(canvas, ctx)` as a pure function from the
current transform (plus the canvas rect and `DEFAULT_SCALING`) to the
transform written back by `ctx.setTransform`. -/
def enforceBounds (scaling : ℚ) (rect : Rect) (t : Transform) : Transform :=
  let a := if t.a < 1 then 1 else t.a
  let d := if t.d < 1 then 1 else t.d
  let scaledWidth := rect.width * a
  let scaledHeight := rect.height * d
  let maxHorizontalTranslation := -(scaledWidth - rect.width) * scaling
  let maxVerticalTranslation := -(scaledHeight - rect.height) * scaling
  let e0 := if t.e > 0 then 0 else t.e
  let e1 := if e0 < maxHorizontalTranslation then maxHorizontalTranslation else e0
  let f0 := if t.f > 0 then 0 else t.f
  let f1 := if f0 < maxVerticalTranslation then maxVerticalTranslation else f0
  ⟨a, t.b, t.c, d, e1, f1⟩

/-- The wheel-zoom composition from the `mousewheel` handler, without the
guard and the bounds pass: map the device point to logical space, then
`ctx.translate(pt.x, pt.y); ctx.scale(zoom, zoom); ctx.translate(-pt.x, -pt.y)`. -/
def zoomAboutDevicePoint (scaling : ℚ) (t : Transform) (x y zoom : ℚ) : Transform :=
  let pt := getTransformedPoint scaling t x y
  ((t.translate pt.x pt.y).scaleBy zoom zoom).translate (-pt.x) (-pt.y)

/-- Embedding of the full `mousewheel` handler's effect on the transform:
if zooming in (`deltaY < 0`) while `transform.a > maxScaleValue`, return
unchanged; otherwise pick zoom `1.02` or `0.98`, compose the pivot zoom,
and run `enforceBounds`.  (`draw` does not touch the transform.) -/
def mousewheel (scaling : ℚ) (rect : Rect) (maxScaleValue : ℚ) (t : Transform)
    (deltaY x y : ℚ) : Transform :=
  if deltaY < 0 ∧ t.a > maxScaleValue then t
  else
    let zoom : ℚ := if deltaY < 0 then 102 / 100 else 98 / 100
    enforceBounds scaling rect (zoomAboutDevicePoint scaling t x y zoom)

/-- A drawable object supplied by the host, capability-polymorphic:
`touches` is `some` exactly when `typeof d.touches === 'function'`;
`hasMove` records whether `typeof d.move === 'function'`;
`hasDraw` records whether `typeof d.draw === 'function'`.  The effects of the
`move` and `draw` capabilities are external (they never touch the transform),
so the embedding records their invocations as traces instead. -/
structure Drawable where
  touches : Option (ℚ → ℚ → Bool) := none
  hasMove : Bool := false
  hasDraw : Bool := true

/-- The hit predicate `typeof d.touches === 'function' && d.touches(pt.x, pt.y)`. -/
def Drawable.touchesAt (d : Drawable) (x y : ℚ) : Bool :=
  match d.touches with
  | some tf => tf x y
  | none => false

/-- Embedding of `getObjectAt(pt)`: `none` for the drawables argument plays
`!Array.isArray(drawables)` (then the function returns undefined); otherwise
`drawables.find(d => typeof d.touches === 'function' && d.touches(pt.x, pt.y))`. -/
def getObjectAt (drawables : Option (List Drawable)) (pt : Point) : Option Drawable :=
  match drawables with
  | none => none
  | some ds => ds.find? (fun d => d.touchesAt pt.x pt.y)

/-- The per-canvas interaction state: the context transform together with the
`canvas.draggingObject` and `canvas.dragStart` expando fields. -/
structure CanvasState where
  transform : Transform
  draggingObject : Option Drawable := none
  dragStart : Option Point := none

/-- Embedding of the `mousedown` handler: ignore non-primary buttons; map the
event point to logical space; if the hit-tested object has a `move` capability
start dragging it, otherwise remember the pan anchor. -/
def mousedown (scaling : ℚ) (drawables : Option (List Drawable)) (s : CanvasState)
    (button : ℤ) (x y : ℚ) : CanvasState :=
  if button ≠ 0 then s
  else
    let pt := getTransformedPoint scaling s.transform x y
    match getObjectAt drawables pt with
    | some obj =>
      if obj.hasMove then { s with draggingObject := some obj }
      else { s with dragStart := some pt }
    | none => { s with dragStart := some pt }

/-- Embedding of the `mousemove` handler.  Returns the new state together with
the `move` invocation it performed, if any: when `draggingObject` is set the
handler calls `draggingObject.move(pt)` and redraws (transform untouched);
else when `dragStart` is set it translates the transform by the logical delta
and re-runs `enforceBounds`; else it does nothing. -/
def mousemove (scaling : ℚ) (rect : Rect) (s : CanvasState) (x y : ℚ) :
    CanvasState × Option (Drawable × Point) :=
  let pt := getTransformedPoint scaling s.transform x y
  match s.draggingObject with
  | some obj => (s, some (obj, pt))
  | none =>
    match s.dragStart with
    | some anchor =>
      let t1 := s.transform.translate (pt.x - anchor.x) (pt.y - anchor.y)
      ({ s with transform := enforceBounds scaling rect t1 }, none)
    | none => (s, none)

/-- Embedding of the drawables loop inside `draw(ctx)`: iterate in list order,
invoking each object's `draw` when present and throwing as soon as one lacks
it.  Returns the list of objects whose `draw` was invoked, in order, together
with whether the loop threw. -/
def drawObjects : List Drawable → List Drawable × Bool
  | [] => ([], false)
  | obj :: rest =>
    if obj.hasDraw then
      let r := drawObjects rest
      (obj :: r.1, r.2)
    else ([], true)

/-- Grid options as supplied by the host; `none` fields are absent keys, which
the spread `{lineWidth: 1, lineColor: '#e6e6e6', cellSize: 40, ...gridOptions}`
replaces with the defaults. -/
structure GridOptions where
  draw : Bool := false
  cellSize : Option ℚ := none
  lineWidth : Option ℚ := none
  lineColor : Option String := none
deriving DecidableEq, Repr

/-- A line segment recorded by `drawLine(ctx, from, to, options)`. -/
structure Line where
  src : Point
  dst : Point
  width : ℚ
  color : String
deriving DecidableEq, Repr

/-- Fuel-indexed embedding of the loop
`for (let x = start; x < bound; x += step)` collecting the loop-variable
values; `none` means the fuel ran out before the bound was reached, the
embedding's proxy for nontermination. -/
def gridCoords (fuel : ℕ) (bound step x : ℚ) : Option (List ℚ) :=
  match fuel with
  | 0 => none
  | n + 1 =>
    if x < bound then (gridCoords n bound step (x + step)).map (fun l => x :: l)
    else some []

/-- Embedding of `drawGrid(ctx)`: scale the rect by `DEFAULT_SCALING`, merge
the grid options with the defaults, then draw the vertical lines followed by
the horizontal lines.  Returns the recorded line segments, or `none` when a
loop does not terminate within the given fuel. -/
def drawGrid (scaling : ℚ) (fuel : ℕ) (rect : Rect) (gridOptions : GridOptions) :
    Option (List Line) :=
  let scaledWidth := rect.width * scaling
  let scaledHeight := rect.height * scaling
  let cellSize := gridOptions.cellSize.getD 40
  let lineWidth := gridOptions.lineWidth.getD 1
  let lineColor := gridOptions.lineColor.getD "#e6e6e6"
  match gridCoords fuel scaledWidth cellSize 0, gridCoords fuel scaledHeight cellSize 0 with
  | some xs, some ys =>
    some (xs.map (fun x => ⟨⟨x, 0⟩, ⟨x, scaledHeight⟩, lineWidth, lineColor⟩) ++
          ys.map (fun y => ⟨⟨0, y⟩, ⟨scaledWidth, y⟩, lineWidth, lineColor⟩))
  | _, _ => none

/-- Embedding of the whole `draw(ctx)` render pass: clear, optionally draw the
grid (when `gridOptions && gridOptions.draw`), then run the drawables loop
(absent or non-array drawables are skipped).  Returns the grid lines, the
objects drawn in order, and whether the pass threw. -/
def render (scaling : ℚ) (fuel : ℕ) (rect : Rect) (gridOptions : Option GridOptions)
    (drawables : Option (List Drawable)) : Option (List Line × List Drawable × Bool) :=
  let gridLines : Option (List Line) :=
    match gridOptions with
    | some go => if go.draw then drawGrid scaling fuel rect go else some []
    | none => some []
  match gridLines with
  | none => none
  | some gl =>
    match drawables with
    | none => some (gl, [], false)
    | some ds => some (gl, (drawObjects ds).1, (drawObjects ds).2)

/-- Number of vertical grid lines in a recorded segment list (a grid segment
is vertical exactly when its endpoints share an x coordinate). -/
def verticalCount (lines : Option (List Line)) : ℕ :=
  (lines.getD []).countP (fun l => l.src.x == l.dst.x)

/-- Number of horizontal grid lines in a recorded segment list. -/
def horizontalCount (lines : Option (List Line)) : ℕ :=
  (lines.getD []).countP (fun l => l.src.y == l.dst.y)

/-- A drawable for concrete instantiations: hit everywhere, movable, drawable. -/
def demoDrawable : Drawable := ⟨some (fun _ _ => true), true, true⟩

/-- A second drawable for concrete instantiations: hit everywhere, not movable. -/
def demoDrawable2 : Drawable := ⟨some (fun _ _ => true), false, true⟩

/-- A drawable lacking the `draw` capability, for concrete instantiations. -/
def demoDrawableNoDraw : Drawable := ⟨none, false, false⟩

end InteractableCanvas

namespace InteractableCanvas

/-- C2: for every device point (x, y), under the identity transform
(scale = 1, translation = 0) `getTransformedPoint` returns
`(x * scaling, y * scaling)`; in particular with density factor 2,
`getTransformedPoint 350 350 = (700, 700)`. -/
theorem identity_transform_mapping :
    (∀ scaling x y : ℚ,
      getTransformedPoint scaling Transform.identity x y = ⟨x * scaling, y * scaling⟩) ∧
    getTransformedPoint 2 Transform.identity 350 350 = ⟨700, 700⟩ := by
  constructor
  · intro scaling x y
    simp [getTransformedPoint, Transform.identity]
  · simp [getTransformedPoint, Transform.identity]
    norm_num

/-- C1: zoom-pivot round trip.  For every transform state satisfying the
component's transform invariant (no skew, uniform scale, nonzero scale), every
device point (x, y), and every nonzero zoom factor, mapping the device point
to logical space, composing translate(L) ∘ scale(zoom) ∘ translate(-L) about
the mapped point L, and mapping the same device point again yields the same
logical coordinates. -/
theorem zoom_pivot_round_trip (scaling : ℚ) (t : Transform) (x y zoom : ℚ)
    (hb : t.b = 0) (hc : t.c = 0) (hd : t.d = t.a) (ha : t.a ≠ 0) (hz : zoom ≠ 0) :
    getTransformedPoint scaling (zoomAboutDevicePoint scaling t x y zoom) x y =
      getTransformedPoint scaling t x y := by
  obtain ⟨a, b, c, d, e, f⟩ := t
  simp only at hb hc hd
  subst hb; subst hc; subst hd
  simp only [getTransformedPoint, zoomAboutDevicePoint, Transform.translate,
    Transform.scaleBy, Point.mk.injEq]
  simp only at ha
  constructor <;> field_simp <;> ring

/-- C1 witness: the round trip at a concrete transform, point and factor. -/
theorem zoom_pivot_round_trip_witness :
    getTransformedPoint 2 (zoomAboutDevicePoint 2 ⟨3, 0, 0, 3, 5, 7⟩ 11 13 (51 / 50)) 11 13 =
      getTransformedPoint 2 ⟨3, 0, 0, 3, 5, 7⟩ 11 13 :=
  zoom_pivot_round_trip 2 ⟨3, 0, 0, 3, 5, 7⟩ 11 13 (51 / 50) rfl rfl rfl
    (by norm_num) (by norm_num)

/-- C5: max-zoom soft cap.  A zoom-in wheel event (`deltaY < 0`) arriving while
the current horizontal scale exceeds `maxScaleValue` leaves the transform
unchanged; a zoom-out wheel event at scale 5.01 with max zoom 5 is not blocked
and applies factor 0.98, reducing the scale to 4.9098. -/
theorem max_zoom_soft_cap :
    (∀ (scaling : ℚ) (rect : Rect) (maxS : ℚ) (t : Transform) (deltaY x y : ℚ),
      deltaY < 0 → maxS < t.a →
      mousewheel scaling rect maxS t deltaY x y = t) ∧
    (mousewheel 2 ⟨700, 700⟩ 5 ⟨501 / 100, 0, 0, 501 / 100, 0, 0⟩ 1 0 0).a = 24549 / 5000 ∧
    (24549 / 5000 : ℚ) < 501 / 100 := by
  refine ⟨?_, ?_, by norm_num⟩
  · intro scaling rect maxS t deltaY x y hδ hs
    simp only [mousewheel]
    rw [if_pos ⟨hδ, hs⟩]
  · norm_num [mousewheel, zoomAboutDevicePoint, getTransformedPoint, enforceBounds,
      Transform.translate, Transform.scaleBy]

/-- C5 witness: a concrete zoom-in wheel event at scale 6 with max zoom 5 is
ignored. -/
theorem max_zoom_soft_cap_witness :
    mousewheel 2 ⟨700, 700⟩ 5 ⟨6, 0, 0, 6, 0, 0⟩ (-1) 3 4 = ⟨6, 0, 0, 6, 0, 0⟩ :=
  max_zoom_soft_cap.1 2 ⟨700, 700⟩ 5 ⟨6, 0, 0, 6, 0, 0⟩ (-1) 3 4 (by norm_num) (by norm_num)

/-- Components of `enforceBounds`, read off definitionally. -/
theorem enforceBounds_a (scaling : ℚ) (rect : Rect) (t : Transform) :
    (enforceBounds scaling rect t).a = if t.a < 1 then 1 else t.a := rfl

/-- Vertical scale component of `enforceBounds`. -/
theorem enforceBounds_d (scaling : ℚ) (rect : Rect) (t : Transform) :
    (enforceBounds scaling rect t).d = if t.d < 1 then 1 else t.d := rfl

/-- Horizontal translation component of `enforceBounds`. -/
theorem enforceBounds_e (scaling : ℚ) (rect : Rect) (t : Transform) :
    (enforceBounds scaling rect t).e =
      if (if t.e > 0 then 0 else t.e) <
          -(rect.width * (if t.a < 1 then 1 else t.a) - rect.width) * scaling
      then -(rect.width * (if t.a < 1 then 1 else t.a) - rect.width) * scaling
      else if t.e > 0 then 0 else t.e := rfl

/-- Vertical translation component of `enforceBounds`. -/
theorem enforceBounds_f (scaling : ℚ) (rect : Rect) (t : Transform) :
    (enforceBounds scaling rect t).f =
      if (if t.f > 0 then 0 else t.f) <
          -(rect.height * (if t.d < 1 then 1 else t.d) - rect.height) * scaling
      then -(rect.height * (if t.d < 1 then 1 else t.d) - rect.height) * scaling
      else if t.f > 0 then 0 else t.f := rfl

/-- Skew components of `enforceBounds` are passed through. -/
theorem enforceBounds_b (scaling : ℚ) (rect : Rect) (t : Transform) :
    (enforceBounds scaling rect t).b = t.b := rfl

/-- Horizontal skew component of `enforceBounds` is passed through. -/
theorem enforceBounds_c (scaling : ℚ) (rect : Rect) (t : Transform) :
    (enforceBounds scaling rect t).c = t.c := rfl

/-- The most negative allowed translation is nonpositive once the scale is at
least 1 and the rect dimension and density factor are nonnegative. -/
theorem maxTranslation_nonpos (w a scaling : ℚ) (hw : 0 ≤ w) (hs : 0 ≤ scaling)
    (ha : 1 ≤ a) : -(w * a - w) * scaling ≤ 0 := by
  have h1 : 0 ≤ w * (a - 1) * scaling :=
    mul_nonneg (mul_nonneg hw (by linarith)) hs
  nlinarith [h1]

/-- C3: bounds-enforcer postcondition.  For every input transform and every
canvas rect with nonnegative dimensions and nonnegative density factor, the
transform written back has both scales at least 1, and each translation lies
in the closed interval between the most negative allowed translation (computed
from the output scale) and 0.  The operation is a total function. -/
theorem enforce_bounds_postcondition (scaling : ℚ) (rect : Rect) (t : Transform)
    (hw : 0 ≤ rect.width) (hh : 0 ≤ rect.height) (hs : 0 ≤ scaling) :
    1 ≤ (enforceBounds scaling rect t).a ∧
    1 ≤ (enforceBounds scaling rect t).d ∧
    -(rect.width * (enforceBounds scaling rect t).a - rect.width) * scaling ≤
      (enforceBounds scaling rect t).e ∧
    (enforceBounds scaling rect t).e ≤ 0 ∧
    -(rect.height * (enforceBounds scaling rect t).d - rect.height) * scaling ≤
      (enforceBounds scaling rect t).f ∧
    (enforceBounds scaling rect t).f ≤ 0 := by
  have ha : 1 ≤ (enforceBounds scaling rect t).a := by
    rw [enforceBounds_a]; split_ifs <;> linarith
  have hd : 1 ≤ (enforceBounds scaling rect t).d := by
    rw [enforceBounds_d]; split_ifs <;> linarith
  have hmw : -(rect.width * (if t.a < 1 then 1 else t.a) - rect.width) * scaling ≤ 0 := by
    apply maxTranslation_nonpos _ _ _ hw hs
    split_ifs <;> linarith
  have hmh : -(rect.height * (if t.d < 1 then 1 else t.d) - rect.height) * scaling ≤ 0 := by
    apply maxTranslation_nonpos _ _ _ hh hs
    split_ifs <;> linarith
  refine ⟨ha, hd, ?_, ?_, ?_, ?_⟩
  · rw [enforceBounds_e, enforceBounds_a]
    split_ifs <;> linarith
  · rw [enforceBounds_e]
    split_ifs at hmw ⊢ <;> linarith
  · rw [enforceBounds_f, enforceBounds_d]
    split_ifs <;> linarith
  · rw [enforceBounds_f]
    split_ifs at hmh ⊢ <;> linarith

/-- C3 witness: the postcondition at a concrete out-of-bounds transform. -/
theorem enforce_bounds_postcondition_witness :
    1 ≤ (enforceBounds 2 ⟨700, 700⟩ ⟨1 / 2, 0, 0, 3, 5, -10000⟩).a ∧
    1 ≤ (enforceBounds 2 ⟨700, 700⟩ ⟨1 / 2, 0, 0, 3, 5, -10000⟩).d ∧
    -((700 : ℚ) * (enforceBounds 2 ⟨700, 700⟩ ⟨1 / 2, 0, 0, 3, 5, -10000⟩).a - 700) * 2 ≤
      (enforceBounds 2 ⟨700, 700⟩ ⟨1 / 2, 0, 0, 3, 5, -10000⟩).e ∧
    (enforceBounds 2 ⟨700, 700⟩ ⟨1 / 2, 0, 0, 3, 5, -10000⟩).e ≤ 0 ∧
    -((700 : ℚ) * (enforceBounds 2 ⟨700, 700⟩ ⟨1 / 2, 0, 0, 3, 5, -10000⟩).d - 700) * 2 ≤
      (enforceBounds 2 ⟨700, 700⟩ ⟨1 / 2, 0, 0, 3, 5, -10000⟩).f ∧
    (enforceBounds 2 ⟨700, 700⟩ ⟨1 / 2, 0, 0, 3, 5, -10000⟩).f ≤ 0 :=
  enforce_bounds_postcondition 2 ⟨700, 700⟩ ⟨1 / 2, 0, 0, 3, 5, -10000⟩
    (by norm_num) (by norm_num) (by norm_num)

/-- C4: bounds idempotence.  Applying the bounds enforcer twice yields the
same transform as applying it once, for every transform, rect and density
factor. -/
theorem enforce_bounds_idempotent (scaling : ℚ) (rect : Rect) (t : Transform) :
    enforceBounds scaling rect (enforceBounds scaling rect t) =
      enforceBounds scaling rect t := by
  have hab : ∀ u : Transform, enforceBounds scaling rect u =
      ⟨(enforceBounds scaling rect u).a, u.b, u.c, (enforceBounds scaling rect u).d,
        (enforceBounds scaling rect u).e, (enforceBounds scaling rect u).f⟩ :=
    fun u => rfl
  rw [hab (enforceBounds scaling rect t), hab t]
  simp only [Transform.mk.injEq, enforceBounds_a, enforceBounds_d, enforceBounds_e,
    enforceBounds_f, enforceBounds_b, enforceBounds_c]
  refine ⟨?_, trivial, trivial, ?_, ?_, ?_⟩ <;> split_ifs <;> rfl

/-- C6: drag-vs-pan dispatch and frame.  Starting from the idle state, a
primary-button pointer-down whose hit-tested drawable has a `move` capability
makes the state drag that drawable, and every subsequent pointer-move reports
a `move` call on it with the freshly mapped logical point while leaving the
whole state (transform included) unchanged; a primary-button pointer-down
hitting no movable drawable records the logical anchor, and every subsequent
pointer-move performs no `move` call and translates the transform by the
logical delta before re-running the bounds enforcer. -/
theorem drag_vs_pan_dispatch (scaling : ℚ) (rect : Rect)
    (drawables : Option (List Drawable)) (t : Transform) (button : ℤ) (x y : ℚ)
    (hbtn : button = 0) :
    (∀ obj, getObjectAt drawables (getTransformedPoint scaling t x y) = some obj →
      obj.hasMove = true →
      (mousedown scaling drawables ⟨t, none, none⟩ button x y).draggingObject = some obj ∧
      (mousedown scaling drawables ⟨t, none, none⟩ button x y).transform = t ∧
      ∀ x2 y2 : ℚ,
        (mousemove scaling rect (mousedown scaling drawables ⟨t, none, none⟩ button x y)
            x2 y2).1 =
          mousedown scaling drawables ⟨t, none, none⟩ button x y ∧
        (mousemove scaling rect (mousedown scaling drawables ⟨t, none, none⟩ button x y)
            x2 y2).2 =
          some (obj, getTransformedPoint scaling t x2 y2)) ∧
    ((∀ obj, getObjectAt drawables (getTransformedPoint scaling t x y) = some obj →
        obj.hasMove = false) →
      (mousedown scaling drawables ⟨t, none, none⟩ button x y).dragStart =
        some (getTransformedPoint scaling t x y) ∧
      (mousedown scaling drawables ⟨t, none, none⟩ button x y).draggingObject = none ∧
      (mousedown scaling drawables ⟨t, none, none⟩ button x y).transform = t ∧
      ∀ x2 y2 : ℚ,
        (mousemove scaling rect (mousedown scaling drawables ⟨t, none, none⟩ button x y)
            x2 y2).2 = none ∧
        (mousemove scaling rect (mousedown scaling drawables ⟨t, none, none⟩ button x y)
            x2 y2).1.transform =
          enforceBounds scaling rect (t.translate
            ((getTransformedPoint scaling t x2 y2).x - (getTransformedPoint scaling t x y).x)
            ((getTransformedPoint scaling t x2 y2).y - (getTransformedPoint scaling t x y).y))) := by
  subst hbtn
  constructor
  · intro obj hobj hmove
    have h1 : mousedown scaling drawables ⟨t, none, none⟩ 0 x y = ⟨t, some obj, none⟩ := by
      simp [mousedown, hobj, hmove]
    rw [h1]
    exact ⟨rfl, rfl, fun x2 y2 => ⟨rfl, rfl⟩⟩
  · intro hnm
    have h2 : mousedown scaling drawables ⟨t, none, none⟩ 0 x y =
        ⟨t, none, some (getTransformedPoint scaling t x y)⟩ := by
      rcases hob : getObjectAt drawables (getTransformedPoint scaling t x y) with _ | obj
      · simp [mousedown, hob]
      · have hm := hnm obj hob
        simp [mousedown, hob, hm]
    rw [h2]
    exact ⟨rfl, rfl, rfl, fun x2 y2 => ⟨rfl, rfl⟩⟩

/-- C6 witness: a pointer-down on a concrete movable drawable starts dragging
it, and the next pointer-move reports a `move` call with the mapped point. -/
theorem drag_vs_pan_dispatch_witness :
    (mousedown 2 (some [demoDrawable]) ⟨Transform.identity, none, none⟩ 0 3 4).draggingObject =
      some demoDrawable ∧
    (mousemove 2 ⟨700, 700⟩
        (mousedown 2 (some [demoDrawable]) ⟨Transform.identity, none, none⟩ 0 3 4) 5 6).2 =
      some (demoDrawable, getTransformedPoint 2 Transform.identity 5 6) := by
  have h := (drag_vs_pan_dispatch 2 ⟨700, 700⟩ (some [demoDrawable]) Transform.identity 0 3 4
    rfl).1 demoDrawable rfl rfl
  exact ⟨h.1, (h.2.2 5 6).2⟩

/-- C7: hit-test precedence.  `getObjectAt` returns `none` on a non-array
drawables value; on a list it returns `none` exactly when no drawable's
`touches` capability exists and fires at the point, and returns `some d`
exactly when `d` is the first drawable in list order that matches (all
earlier ones, including those lacking `touches`, do not match); in particular
with two overlapping drawables the first in list order wins. -/
theorem hit_test_precedence :
    (∀ pt, getObjectAt none pt = none) ∧
    (∀ (ds : List Drawable) (pt : Point),
      getObjectAt (some ds) pt = none ↔ ∀ d ∈ ds, ¬d.touchesAt pt.x pt.y = true) ∧
    (∀ (ds : List Drawable) (pt : Point) (d : Drawable),
      getObjectAt (some ds) pt = some d ↔
        d.touchesAt pt.x pt.y = true ∧
        ∃ l1 l2, ds = l1 ++ d :: l2 ∧ ∀ d2 ∈ l1, d2.touchesAt pt.x pt.y = false) ∧
    (∀ (d1 d2 : Drawable) (pt : Point),
      d1.touchesAt pt.x pt.y = true → d2.touchesAt pt.x pt.y = true →
      getObjectAt (some [d1, d2]) pt = some d1) := by
  refine ⟨fun pt => rfl, ?_, ?_, ?_⟩
  · intro ds pt
    simp [getObjectAt]
  · intro ds pt d
    rw [show getObjectAt (some ds) pt = ds.find? (fun d2 => d2.touchesAt pt.x pt.y) from rfl,
      List.find?_eq_some]
    simp
  · intro d1 d2 pt h1 h2
    simp [getObjectAt, List.find?, h1]

/-- C7 witness: two overlapping concrete drawables; the first in list order is
returned. -/
theorem hit_test_precedence_witness :
    getObjectAt (some [demoDrawable, demoDrawable2]) ⟨1, 2⟩ = some demoDrawable :=
  hit_test_precedence.2.2.2 demoDrawable demoDrawable2 ⟨1, 2⟩ rfl rfl

/-- C8: missing draw capability is fatal.  The drawables loop of the render
pass invokes `draw` on each drawable preceding the first one lacking the
capability and then throws; when every drawable has `draw` it invokes all of
them in list order and does not throw; the thrown flag propagates out of the
render call unchanged. -/
theorem missing_draw_fatal :
    (∀ (pre : List Drawable) (bad : Drawable) (post : List Drawable),
      bad.hasDraw = false → (∀ d ∈ pre, d.hasDraw = true) →
      drawObjects (pre ++ bad :: post) = (pre, true)) ∧
    (∀ ds : List Drawable, (∀ d ∈ ds, d.hasDraw = true) → drawObjects ds = (ds, false)) ∧
    (∀ (scaling : ℚ) (fuel : ℕ) (rect : Rect) (ds : List Drawable),
      render scaling fuel rect none (some ds) =
        some ([], (drawObjects ds).1, (drawObjects ds).2)) := by
  refine ⟨?_, ?_, fun scaling fuel rect ds => rfl⟩
  · intro pre bad post hbad hpre
    induction pre with
    | nil => simp [drawObjects, hbad]
    | cons hd tl ih =>
      have hhd : hd.hasDraw = true := hpre hd (by simp)
      have htl : ∀ d ∈ tl, d.hasDraw = true := fun d hd2 => hpre d (by simp [hd2])
      simp [drawObjects, hhd, ih htl]
  · intro ds hall
    induction ds with
    | nil => rfl
    | cons hd tl ih =>
      have hhd : hd.hasDraw = true := hall hd (by simp)
      have htl : ∀ d ∈ tl, d.hasDraw = true := fun d hd2 => hall d (by simp [hd2])
      simp [drawObjects, hhd, ih htl]

/-- C8 witness: a concrete list whose second element lacks `draw` invokes only
the first element's `draw` and throws. -/
theorem missing_draw_fatal_witness :
    drawObjects [demoDrawable, demoDrawableNoDraw] = ([demoDrawable], true) :=
  missing_draw_fatal.1 [demoDrawable] demoDrawableNoDraw [] rfl
    (by rintro d hd; rw [List.mem_singleton] at hd; subst hd; rfl)

/-- Helper for C9: closed form of the grid loop when the step is positive and
the fuel exceeds the iteration count: the loop values are
`x, x + step, …`, one per unit of `⌈(bound - x) / step⌉`. -/
theorem gridCoords_closed (step : ℚ) (hstep : 0 < step) :
    ∀ (n : ℕ) (bound x : ℚ), ⌈(bound - x) / step⌉.toNat < n →
      gridCoords n bound step x =
        some ((List.range ⌈(bound - x) / step⌉.toNat).map (fun i : ℕ => x + (i : ℚ) * step)) := by
  intro n
  induction n with
  | zero => intro bound x h; omega
  | succ m ih =>
    intro bound x h
    by_cases hx : x < bound
    · have hne : step ≠ 0 := ne_of_gt hstep
      have key : (bound - (x + step)) / step = (bound - x) / step - 1 := by
        field_simp
        ring
      have hpos : (0 : ℚ) < (bound - x) / step := div_pos (by linarith) hstep
      have hceil : 1 ≤ ⌈(bound - x) / step⌉ := Int.ceil_pos.mpr hpos
      have hk : ⌈(bound - (x + step)) / step⌉ = ⌈(bound - x) / step⌉ - 1 := by
        rw [key, Int.ceil_sub_one]
      have hkn : ⌈(bound - (x + step)) / step⌉.toNat < m := by rw [hk]; omega
      have hstep1 : gridCoords (m + 1) bound step x =
          (gridCoords m bound step (x + step)).map (fun l => x :: l) := by
        simp [gridCoords, hx]
      rw [hstep1, ih bound (x + step) hkn]
      simp only [Option.map_some']
      congr 1
      have hsucc : ⌈(bound - x) / step⌉.toNat =
          ⌈(bound - (x + step)) / step⌉.toNat + 1 := by rw [hk]; omega
      rw [hsucc, List.range_succ_eq_map, List.map_cons, List.map_map]
      congr 1
      · simp
      · refine (List.map_congr_left ?_).symm
        intro i _
        simp only [Function.comp_apply]
        push_cast
        ring
    · have hle : (bound - x) / step ≤ 0 := by
        apply div_nonpos_of_nonpos_of_nonneg <;> linarith
      have hzero : ⌈(bound - x) / step⌉.toNat = 0 := by
        have hc : ⌈(bound - x) / step⌉ ≤ 0 := Int.ceil_le.mpr (by exact_mod_cast hle)
        omega
      rw [hzero]
      simp [gridCoords, hx]

/-- Helper for C9: the vertical-line loop on a 1400-wide scaled rect with cell
size 40 yields the 35 multiples of 40 below 1400. -/
theorem gridCoords_1400_40 :
    gridCoords 100 1400 40 0 = some ((List.range 35).map (fun i : ℕ => (i : ℚ) * 40)) := by
  have hK : ⌈((1400 : ℚ) - 0) / 40⌉.toNat = 35 := by
    have h1 : ((1400 : ℚ) - 0) / 40 = 35 := by norm_num
    rw [h1]
    have h2 : ⌈(35 : ℚ)⌉ = 35 := by norm_num
    rw [h2]
    rfl
  have h := gridCoords_closed 40 (by norm_num) 100 1400 0 (by rw [hK]; norm_num)
  rw [h, hK]
  congr 1
  apply List.map_congr_left
  intro i _
  ring

/-- Helper for C9: the full grid pass on the 700×700 rect at density 2 with
cell size 40, evaluated to its explicit list of segments. -/
theorem drawGrid_eval :
    drawGrid 2 100 ⟨700, 700⟩ ⟨true, some 40, none, none⟩ =
      some ((((List.range 35).map (fun i : ℕ => (i : ℚ) * 40)).map
          (fun x => (⟨⟨x, 0⟩, ⟨x, 1400⟩, 1, "#e6e6e6"⟩ : Line))) ++
        (((List.range 35).map (fun i : ℕ => (i : ℚ) * 40)).map
          (fun y => (⟨⟨0, y⟩, ⟨1400, y⟩, 1, "#e6e6e6"⟩ : Line)))) := by
  have h1400 : (700 : ℚ) * 2 = 1400 := by norm_num
  simp only [drawGrid, Option.getD_some, Option.getD_none, h1400, gridCoords_1400_40]

/-- Helper for C9: the evaluated grid pass records exactly 35 vertical
segments. -/
theorem verticalCount_eval :
    verticalCount (drawGrid 2 100 ⟨700, 700⟩ ⟨true, some 40, none, none⟩) = 35 := by
  have h0 : ((0 : ℚ) == 1400) = false := by decide
  rw [verticalCount, drawGrid_eval]
  simp [List.countP_append, List.countP_map, Function.comp_def, h0]

/-- Helper for C9: the evaluated grid pass records exactly 35 horizontal
segments. -/
theorem horizontalCount_eval :
    horizontalCount (drawGrid 2 100 ⟨700, 700⟩ ⟨true, some 40, none, none⟩) = 35 := by
  have h0 : ((0 : ℚ) == 1400) = false := by decide
  rw [horizontalCount, drawGrid_eval]
  simp [List.countP_append, List.countP_map, Function.comp_def, h0]

/-- C9 counterexample: on a 700×700 rect with density factor 2 and cell size
40, the grid pass records 35 vertical and 35 horizontal line segments, not
`ceil(1400/40) + 1 = 36` as the claim states. -/
theorem grid_line_count_counterexample :
    verticalCount (drawGrid 2 100 ⟨700, 700⟩ ⟨true, some 40, none, none⟩) = 35 ∧
    horizontalCount (drawGrid 2 100 ⟨700, 700⟩ ⟨true, some 40, none, none⟩) = 35 ∧
    ⌈(1400 : ℚ) / 40⌉.toNat + 1 = 36 ∧ (35 : ℕ) ≠ 36 := by
  refine ⟨verticalCount_eval, horizontalCount_eval, ?_, by norm_num⟩
  have h1 : ((1400 : ℚ) / 40) = 35 := by norm_num
  rw [h1]
  have h2 : ⌈(35 : ℚ)⌉ = 35 := by norm_num
  rw [h2]
  rfl

/-- C9 (amended): one grid pass with `{draw: true, cellSize: 40}` on a 700×700
rect at density factor 2 records exactly `ceil(1400/40) = 35` vertical and 35
horizontal line segments, each spanning the density-scaled backing store, and
the render pass emits exactly the grid's segments. -/
theorem grid_line_count_amended :
    verticalCount (drawGrid 2 100 ⟨700, 700⟩ ⟨true, some 40, none, none⟩) = 35 ∧
    horizontalCount (drawGrid 2 100 ⟨700, 700⟩ ⟨true, some 40, none, none⟩) = 35 ∧
    (drawGrid 2 100 ⟨700, 700⟩ ⟨true, some 40, none, none⟩).isSome = true ∧
    (∀ l ∈ (drawGrid 2 100 ⟨700, 700⟩ ⟨true, some 40, none, none⟩).getD [],
      (l.src.x = l.dst.x ∧ l.src.y = 0 ∧ l.dst.y = 1400) ∨
      (l.src.y = l.dst.y ∧ l.src.x = 0 ∧ l.dst.x = 1400)) ∧
    render 2 100 ⟨700, 700⟩ (some ⟨true, some 40, none, none⟩) (some []) =
      (drawGrid 2 100 ⟨700, 700⟩ ⟨true, some 40, none, none⟩).map
        (fun gl => (gl, [], false)) := by
  refine ⟨verticalCount_eval, horizontalCount_eval, ?_, ?_, ?_⟩
  · rw [drawGrid_eval]
    rfl
  · rw [drawGrid_eval]
    simp only [Option.getD_some, List.mem_append, List.mem_map]
    rintro l (⟨x, ⟨i, hi, rfl⟩, rfl⟩ | ⟨y, ⟨i, hi, rfl⟩, rfl⟩)
    · left; exact ⟨rfl, rfl, rfl⟩
    · right; exact ⟨rfl, rfl, rfl⟩
  · simp [render, drawGrid_eval, drawObjects]

/-- C9 witness: a concrete vertical segment of the evaluated grid spans the
backing store. -/
theorem grid_line_count_amended_witness :
    verticalCount (drawGrid 2 100 ⟨700, 700⟩ ⟨true, some 40, none, none⟩) = 35 ∧
    (((⟨⟨0, 0⟩, ⟨0, 1400⟩, 1, "#e6e6e6"⟩ : Line).src.x =
        (⟨⟨0, 0⟩, ⟨0, 1400⟩, 1, "#e6e6e6"⟩ : Line).dst.x ∧
      (⟨⟨0, 0⟩, ⟨0, 1400⟩, 1, "#e6e6e6"⟩ : Line).src.y = 0 ∧
      (⟨⟨0, 0⟩, ⟨0, 1400⟩, 1, "#e6e6e6"⟩ : Line).dst.y = 1400) ∨
     ((⟨⟨0, 0⟩, ⟨0, 1400⟩, 1, "#e6e6e6"⟩ : Line).src.y =
        (⟨⟨0, 0⟩, ⟨0, 1400⟩, 1, "#e6e6e6"⟩ : Line).dst.y ∧
      (⟨⟨0, 0⟩, ⟨0, 1400⟩, 1, "#e6e6e6"⟩ : Line).src.x = 0 ∧
      (⟨⟨0, 0⟩, ⟨0, 1400⟩, 1, "#e6e6e6"⟩ : Line).dst.x = 1400)) :=
  ⟨grid_line_count_amended.1,
    grid_line_count_amended.2.2.2.1 ⟨⟨0, 0⟩, ⟨0, 1400⟩, 1, "#e6e6e6"⟩ (by
      rw [drawGrid_eval]
      simp only [Option.getD_some, List.mem_append, List.mem_map]
      left
      exact ⟨0, ⟨0, by simp, by norm_num⟩, by norm_num⟩)⟩

/-- Helper for C10: when the step is positive, fuel exceeding the ceiling of
the remaining distance divided by the step makes the grid loop terminate. -/
theorem gridCoords_isSome_of_lt_fuel (step : ℚ) (hstep : 0 < step) :
    ∀ (n : ℕ) (bound x : ℚ), ⌈(bound - x) / step⌉.toNat < n →
      (gridCoords n bound step x).isSome = true := by
  intro n bound x h
  rw [gridCoords_closed step hstep n bound x h]
  rfl

/-- Helper for C10: when the step is nonpositive and the loop variable starts
below the bound, the loop never reaches the bound, whatever the fuel. -/
theorem gridCoords_none_of_nonpos (bound step : ℚ) (hstep : step ≤ 0) :
    ∀ (n : ℕ) (x : ℚ), x < bound → gridCoords n bound step x = none := by
  intro n
  induction n with
  | zero => intro x _; rfl
  | succ m ih =>
    intro x hx
    have hx2 : x + step < bound := by linarith
    simp [gridCoords, hx, ih (x + step) hx2]

/-- C10: for a positive cell size the grid-line loop terminates (some finite
fuel suffices from any start), while for a nonpositive cell size on a rect of
positive scaled size the loop bound is never reached — no fuel suffices. -/
theorem grid_loop_termination (bound step : ℚ) :
    (0 < step → ∀ x : ℚ, ∃ n, (gridCoords n bound step x).isSome = true) ∧
    (step ≤ 0 → 0 < bound → ∀ n, gridCoords n bound step 0 = none) := by
  constructor
  · intro hstep x
    exact ⟨⌈(bound - x) / step⌉.toNat + 1,
      gridCoords_isSome_of_lt_fuel step hstep _ bound x (Nat.lt_succ_self _)⟩
  · intro hstep hbound n
    exact gridCoords_none_of_nonpos bound step hstep n 0 hbound

/-- C10 witness: the 1400-wide loop with cell size 40 terminates; with cell
size 0 it exhausts any fuel. -/
theorem grid_loop_termination_witness :
    (∃ n, (gridCoords n 1400 40 0).isSome = true) ∧ gridCoords 5 1400 0 0 = none :=
  ⟨(grid_loop_termination 1400 40).1 (by norm_num) 0,
    (grid_loop_termination 1400 0).2 (by norm_num) (by norm_num) 5⟩

end InteractableCanvas
